import Mathlib

/-!
Verification of the mini-golf core (src/app/src/main/cpp/main.c).

The C program computes with 32-bit floats; this development models that
arithmetic as exact rational arithmetic over the literal constants of the
source (0.95, -0.8, 0.15, 0.5, ...).  Threshold comparisons that the C code
performs on a square root, such as the comparison of Vector2Distance with
SINK_DISTANCE, are modelled on the squared quantities, which is exactly
equivalent for real numbers because squaring is monotone on nonnegatives.
Value-level square roots (vector normalization, the drag power ratio) use
Rat.sqrt, which agrees with the real square root on perfect squares; every
concrete input evaluated below is chosen with a perfect-square length.
Raylib and raymath library functions used by the program (Vector2Add,
Vector2Normalize, GetRandomValue, CheckCollisionPointRec, mouse queries) are
modelled from their library semantics, noted at each definition.
-/

namespace MiniGolf

/-- Exact rational model of raymath's two-component float vector. -/
structure Vec2 where
  x : ℚ
  y : ℚ
deriving DecidableEq

/-- raymath Vector2Add: componentwise sum. -/
def Vector2Add (a b : Vec2) : Vec2 := ⟨a.x + b.x, a.y + b.y⟩

/-- raymath Vector2Subtract: componentwise difference. -/
def Vector2Subtract (a b : Vec2) : Vec2 := ⟨a.x - b.x, a.y - b.y⟩

/-- raymath Vector2Scale: multiply both components by a scalar. -/
def Vector2Scale (v : Vec2) (k : ℚ) : Vec2 := ⟨v.x * k, v.y * k⟩

/-- raymath Vector2LengthSqr: squared Euclidean length. -/
def Vector2LengthSqr (v : Vec2) : ℚ := v.x * v.x + v.y * v.y

/-- raymath Vector2Length, modelled with the rational square root (exact on
perfect squares). -/
def Vector2Length (v : Vec2) : ℚ := Rat.sqrt (Vector2LengthSqr v)

/-- Squared Euclidean distance between two points. -/
def Vector2DistanceSqr (a b : Vec2) : ℚ := Vector2LengthSqr (Vector2Subtract b a)

/-- Models the C comparison Vector2Distance(a, b) < c for a nonnegative
threshold c: over the reals, sqrt(d) < c is equivalent to d < c * c, so the
comparison is taken on the exact squared distance. -/
abbrev distLt (a b : Vec2) (c : ℚ) : Prop := Vector2DistanceSqr a b < c * c

/-- raymath Vector2Normalize, including its zero-length guard: when the input
has length zero the function returns the zero vector instead of dividing. -/
def Vector2Normalize (v : Vec2) : Vec2 :=
  let length := Vector2Length v
  if 0 < length then ⟨v.x / length, v.y / length⟩ else ⟨0, 0⟩

/-- Constant SINK_DISTANCE from main.c line 33. -/
def SINK_DISTANCE : ℚ := 30

/-- Constant SINK_PULL from main.c line 34. -/
def SINK_PULL : ℚ := 0.5

/-- Constant BALL_RADIUS from main.c line 35. -/
def BALL_RADIUS : ℚ := 10

/-- Constant MAX_DRAG_DISTANCE from main.c line 141. -/
def MAX_DRAG_DISTANCE : ℚ := 200

/-- Constant MAX_VELOCITY from main.c line 143. -/
def MAX_VELOCITY : ℚ := 15

/-- Constant screenWidth from main.c line 102. -/
def screenWidth : ℚ := 800

/-- Constant screenHeight from main.c line 103. -/
def screenHeight : ℚ := 600

/-- The fixed starting position of the ball, (100, 500) (main.c lines 26, 70, 92). -/
def startPos : Vec2 := ⟨100, 500⟩

/-- The global game state of main.c: strokes, holeInOne, ball, hole, velocity,
dragging, dragStart (lines 22-30). -/
structure GameState where
  strokes : ℕ
  holeInOne : Bool
  ball : Vec2
  hole : Vec2
  velocity : Vec2
  dragging : Bool
  dragStart : Vec2
deriving DecidableEq

/-- One frame's worth of mouse input: IsMouseButtonPressed(MOUSE_LEFT_BUTTON),
IsMouseButtonReleased(MOUSE_LEFT_BUTTON), GetMousePosition(). -/
structure FrameInput where
  pressed : Bool
  released : Bool
  mouse : Vec2
deriving DecidableEq

/-- Axis-aligned rectangle, modelling raylib's Rectangle. -/
structure Rect where
  x : ℚ
  y : ℚ
  width : ℚ
  height : ℚ

/-- raylib CheckCollisionPointRec: point-in-rectangle test. -/
abbrev CheckCollisionPointRec (p : Vec2) (r : Rect) : Prop :=
  r.x ≤ p.x ∧ p.x < r.x + r.width ∧ r.y ≤ p.y ∧ p.y < r.y + r.height

/-- The Play Again button rectangle of main.c lines 157-164:
x = 800/2 - 200/2 = 300, y = 600/2 + 100 = 400, width 200, height 50. -/
def playAgainButton : Rect := ⟨300, 400, 200, 50⟩

/-- Step 1 of the physics update (main.c lines 196-211): gravity-well
attraction toward the hole and the nested win check.  Returns the updated
ball position, the updated velocity, and whether the ball sank this frame.
The win check reads the velocity AFTER the sink pull has been added. -/
def sinkStep (s : GameState) : Vec2 × Vec2 × Bool :=
  if distLt s.ball s.hole SINK_DISTANCE then
    let direction := Vector2Normalize (Vector2Subtract s.hole s.ball)
    let v1 := Vector2Add s.velocity (Vector2Scale direction SINK_PULL)
    if distLt s.ball s.hole 5 ∧ Vector2LengthSqr v1 < 1 then
      (s.hole, ⟨0, 0⟩, true)
    else
      (s.ball, v1, false)
  else
    (s.ball, s.velocity, false)

/-- The velocity after the sink attraction of main.c lines 200-203 has been
applied: velocity + SINK_PULL * normalize(hole - ball). -/
def sinkAttraction (s : GameState) : Vec2 :=
  Vector2Add s.velocity (Vector2Scale (Vector2Normalize (Vector2Subtract s.hole s.ball)) SINK_PULL)

/-- Step 2 of the physics update (main.c lines 213-217): hard velocity cap.
The comparison Vector2Length(velocity) > MAX_VELOCITY is taken on squares. -/
def capVelocity (v : Vec2) : Vec2 :=
  if MAX_VELOCITY * MAX_VELOCITY < Vector2LengthSqr v then
    Vector2Scale (Vector2Normalize v) MAX_VELOCITY
  else v

/-- One axis of step 4 of the physics update (main.c lines 225-246): if the
position has crossed a boundary, reverse and dampen that velocity component
by -0.8 and snap the position to the boundary. -/
def bounceAxis (pos vel lo hi : ℚ) : ℚ × ℚ :=
  if pos < lo then (lo, vel * (-0.8))
  else if hi < pos then (hi, vel * (-0.8))
  else (pos, vel)

/-- The per-frame physics update of main.c lines 195-247, executed only while
holeInOne is false: sink attraction and win check, velocity cap, position
integration, friction, and per-axis boundary bounce. -/
def physicsStep (s : GameState) : GameState :=
  if s.holeInOne = true then s
  else
    let r := sinkStep s
    let v2 := capVelocity r.2.1
    let b2 := Vector2Add r.1 v2
    let v3 := Vector2Scale v2 0.95
    let px := bounceAxis b2.x v3.x BALL_RADIUS (screenWidth - BALL_RADIUS)
    let py := bounceAxis b2.y v3.y BALL_RADIUS (screenHeight - BALL_RADIUS)
    { s with holeInOne := r.2.2, ball := ⟨px.1, py.1⟩, velocity := ⟨px.2, py.2⟩ }

/-- The power ratio of a shot (main.c line 184):
fminf(dragDistance / MAX_DRAG_DISTANCE, 1.0f). -/
def powerScalar (shoot : Vec2) : ℚ :=
  min (Vector2Length shoot / MAX_DRAG_DISTANCE) 1

/-- The velocity delta a committed drag adds to the ball velocity
(main.c lines 186-187): componentwise shootVector * 0.15 * powerScalar. -/
def shotDelta (shoot : Vec2) : Vec2 :=
  ⟨shoot.x * 0.15 * powerScalar shoot, shoot.y * 0.15 * powerScalar shoot⟩

/-- Drag start handling (main.c lines 171-176): on a press within distance 20
of the ball while the ball is stopped (squared speed below 0.1), enter the
dragging state and record the press position. -/
def dragStartStep (inp : FrameInput) (s : GameState) : GameState :=
  if inp.pressed = true ∧ distLt inp.mouse s.ball 20 ∧ Vector2LengthSqr s.velocity < 0.1 then
    { s with dragging := true, dragStart := inp.mouse }
  else s

/-- Drag commit handling (main.c lines 178-191): on release while dragging,
add the shot impulse to the velocity, leave the dragging state, and increment
the stroke count. -/
def dragCommitStep (inp : FrameInput) (s : GameState) : GameState :=
  if inp.released = true ∧ s.dragging = true then
    { s with
      velocity := Vector2Add s.velocity (shotDelta (Vector2Subtract s.dragStart inp.mouse)),
      dragging := false,
      strokes := s.strokes + 1 }
  else s

/-- ResetGame of main.c lines 87-98 with a given fresh hole position: every
field of the game state is overwritten, independently of the previous state. -/
def ResetGameWith (newHole : Vec2) : GameState :=
  { strokes := 0, holeInOne := false, ball := ⟨100, 500⟩, hole := newHole,
    velocity := ⟨0, 0⟩, dragging := false, dragStart := ⟨0, 0⟩ }

/-- The input-handling section of the frame loop (main.c lines 150-192).
While holeInOne is true, a press inside the Play Again rectangle resets the
game; newHole stands for the hole position the generator produces for that
reset (the generator itself is modelled and verified separately below).
Otherwise the drag start check runs, then the drag commit check, in the
source's order. -/
def inputStep (newHole : Vec2) (inp : FrameInput) (s : GameState) : GameState :=
  if s.holeInOne = true then
    if inp.pressed = true ∧ CheckCollisionPointRec inp.mouse playAgainButton then
      ResetGameWith newHole
    else s
  else
    dragCommitStep inp (dragStartStep inp s)

/-- One full iteration of the frame loop's state mutation (main.c lines
148-247): input handling followed by the physics update. -/
def frameStep (newHole : Vec2) (inp : FrameInput) (s : GameState) : GameState :=
  physicsStep (inputStep newHole inp s)

/-- The rejection-sampling loop of GenerateNewHolePosition (main.c lines
74-80).  raylib's GetRandomValue(min, max) is modelled as a stream of integer
candidate pairs, indexed by how many draws have happened; the range contract
of GetRandomValue is stated separately as streamInRange.  The loop has no
bound in C, so the model carries explicit fuel and returns none on
exhaustion; the loop keeps drawing while the candidate is within distance
300 of the ball start position (100, 500). -/
def GenerateNewHolePosition (stream : ℕ → ℤ × ℤ) : ℕ → ℕ → Option Vec2
  | _, 0 => none
  | i, fuel + 1 =>
    let p : Vec2 := ⟨((stream i).1 : ℚ), ((stream i).2 : ℚ)⟩
    if distLt p startPos 300 then GenerateNewHolePosition stream (i + 1) fuel
    else some p

/-- Range contract of the two GetRandomValue calls of main.c lines 76-78 for
the 800 x 600 screen with margin 50: every draw lies in [50, 750] x [50, 550]. -/
def streamInRange (stream : ℕ → ℤ × ℤ) : Prop :=
  ∀ n, 50 ≤ (stream n).1 ∧ (stream n).1 ≤ 750 ∧ 50 ≤ (stream n).2 ∧ (stream n).2 ≤ 550

/-- ResetGame of main.c lines 87-98: generate a fresh hole position, then
overwrite every state field.  Takes the previous state to mirror the C
function acting on the globals; the result does not depend on it. -/
def ResetGame (stream : ℕ → ℤ × ℤ) (fuel : ℕ) (_s : GameState) : Option GameState :=
  (GenerateNewHolePosition stream 0 fuel).map ResetGameWith

lemma rat_sqrt_of_eq_sq {a q : ℚ} (h0 : 0 ≤ a) (h : q = a * a) : Rat.sqrt q = a := by
  rw [h, Rat.sqrt_eq, abs_of_nonneg h0]

lemma Vector2Normalize_eq_of_len {v : Vec2} {len : ℚ} (h0 : 0 < len)
    (h : Vector2LengthSqr v = len * len) :
    Vector2Normalize v = ⟨v.x / len, v.y / len⟩ := by
  unfold Vector2Normalize Vector2Length
  rw [rat_sqrt_of_eq_sq h0.le h, if_pos h0]

lemma Vector2Normalize_zero_vec : Vector2Normalize ⟨0, 0⟩ = ⟨0, 0⟩ := by
  unfold Vector2Normalize Vector2Length
  have h : Vector2LengthSqr ⟨0, 0⟩ = 0 * 0 := by norm_num [Vector2LengthSqr]
  rw [rat_sqrt_of_eq_sq le_rfl h, if_neg (lt_irrefl 0)]

lemma le_rat_sqrt_of_sq_le {n : ℕ} {q : ℚ} (h : (n : ℚ) * n ≤ q) : (n : ℚ) ≤ Rat.sqrt q := by
  have hq0 : 0 ≤ q := le_trans (by positivity) h
  have hden : (0 : ℚ) < (q.den : ℚ) := by exact_mod_cast q.pos
  have hnum : ((n : ℤ) * n * q.den : ℤ) ≤ q.num := by
    have h2 : ((n : ℚ) * n) * (q.den : ℚ) ≤ (q.num : ℚ) := by
      rw [← Rat.num_div_den q] at h
      exact (le_div_iff₀ hden).mp h
    exact_mod_cast h2
  have hnum0 : 0 ≤ q.num := Rat.num_nonneg.mpr hq0
  have hnat : n * n * q.den ≤ q.num.toNat := by
    have h3 : ((n * n * q.den : ℕ) : ℤ) ≤ q.num := by push_cast; linarith
    exact_mod_cast h3.trans_eq (Int.toNat_of_nonneg hnum0).symm
  have hkey : n * Nat.sqrt q.den ≤ Nat.sqrt q.num.toNat := by
    refine Nat.le_sqrt.mpr ?_
    calc n * Nat.sqrt q.den * (n * Nat.sqrt q.den)
        = n * n * (Nat.sqrt q.den * Nat.sqrt q.den) := by ring
      _ ≤ n * n * q.den := Nat.mul_le_mul_left _ (Nat.sqrt_le _)
      _ ≤ q.num.toNat := hnat
  have hsden : 0 < Nat.sqrt q.den := Nat.le_sqrt.mpr (by simpa using q.pos)
  have hsq : Rat.sqrt q = ((Nat.sqrt q.num.toNat : ℚ)) / ((Nat.sqrt q.den : ℚ)) := by
    rw [Rat.sqrt, Rat.mkRat_eq_divInt, Rat.divInt_eq_div, Int.sqrt]
    norm_num
  rw [hsq, le_div_iff₀ (by exact_mod_cast hsden)]
  exact_mod_cast hkey

lemma sinkStep_of_far {s : GameState} (h : ¬ distLt s.ball s.hole SINK_DISTANCE) :
    sinkStep s = (s.ball, s.velocity, false) := by
  unfold sinkStep
  rw [if_neg h]

lemma sinkStep_of_pull {s : GameState} (h1 : distLt s.ball s.hole SINK_DISTANCE)
    (h2 : ¬ (distLt s.ball s.hole 5 ∧ Vector2LengthSqr (sinkAttraction s) < 1)) :
    sinkStep s = (s.ball, sinkAttraction s, false) := by
  unfold sinkStep sinkAttraction
  rw [if_pos h1, if_neg (by exact fun hc => h2 (by exact hc))]

lemma sinkStep_of_snap {s : GameState} (h1 : distLt s.ball s.hole SINK_DISTANCE)
    (h2 : distLt s.ball s.hole 5) (h3 : Vector2LengthSqr (sinkAttraction s) < 1) :
    sinkStep s = (s.hole, ⟨0, 0⟩, true) := by
  unfold sinkStep sinkAttraction at *
  rw [if_pos h1, if_pos ⟨h2, h3⟩]

lemma capVelocity_of_le {v : Vec2} (h : Vector2LengthSqr v ≤ MAX_VELOCITY * MAX_VELOCITY) :
    capVelocity v = v := by
  unfold capVelocity
  rw [if_neg (not_lt.mpr h)]

lemma bounceAxis_of_low {pos vel lo hi : ℚ} (h : pos < lo) :
    bounceAxis pos vel lo hi = (lo, vel * (-0.8)) := by
  unfold bounceAxis
  rw [if_pos h]

lemma bounceAxis_of_mid {pos vel lo hi : ℚ} (h1 : lo ≤ pos) (h2 : pos ≤ hi) :
    bounceAxis pos vel lo hi = (pos, vel) := by
  unfold bounceAxis
  rw [if_neg (not_lt.mpr h1), if_neg (not_lt.mpr h2)]

lemma bounceAxis_fst_mem (pos vel lo hi : ℚ) (h : lo ≤ hi) :
    lo ≤ (bounceAxis pos vel lo hi).1 ∧ (bounceAxis pos vel lo hi).1 ≤ hi := by
  unfold bounceAxis
  split_ifs with h1 h2
  · exact ⟨le_rfl, h⟩
  · exact ⟨h, le_rfl⟩
  · exact ⟨not_lt.mp h1, not_lt.mp h2⟩

lemma physicsStep_of_play {s : GameState} (h : s.holeInOne = false) :
    physicsStep s =
      { s with
        holeInOne := (sinkStep s).2.2,
        ball := ⟨(bounceAxis (Vector2Add (sinkStep s).1 (capVelocity (sinkStep s).2.1)).x
                    (Vector2Scale (capVelocity (sinkStep s).2.1) 0.95).x
                    BALL_RADIUS (screenWidth - BALL_RADIUS)).1,
                 (bounceAxis (Vector2Add (sinkStep s).1 (capVelocity (sinkStep s).2.1)).y
                    (Vector2Scale (capVelocity (sinkStep s).2.1) 0.95).y
                    BALL_RADIUS (screenHeight - BALL_RADIUS)).1⟩,
        velocity := ⟨(bounceAxis (Vector2Add (sinkStep s).1 (capVelocity (sinkStep s).2.1)).x
                       (Vector2Scale (capVelocity (sinkStep s).2.1) 0.95).x
                       BALL_RADIUS (screenWidth - BALL_RADIUS)).2,
                     (bounceAxis (Vector2Add (sinkStep s).1 (capVelocity (sinkStep s).2.1)).y
                       (Vector2Scale (capVelocity (sinkStep s).2.1) 0.95).y
                       BALL_RADIUS (screenHeight - BALL_RADIUS)).2⟩ } := by
  unfold physicsStep
  rw [if_neg (by simp [h])]

/-- Claim C2: for every state with isSunk false, one execution of the
per-frame physics step leaves the ball position within
[radius, screenWidth - radius] x [radius, screenHeight - radius]. -/
theorem boundary_containment (s : GameState) (h : s.holeInOne = false) :
    BALL_RADIUS ≤ (physicsStep s).ball.x ∧
    (physicsStep s).ball.x ≤ screenWidth - BALL_RADIUS ∧
    BALL_RADIUS ≤ (physicsStep s).ball.y ∧
    (physicsStep s).ball.y ≤ screenHeight - BALL_RADIUS := by
  rw [physicsStep_of_play h]
  have hx := bounceAxis_fst_mem
    (Vector2Add (sinkStep s).1 (capVelocity (sinkStep s).2.1)).x
    (Vector2Scale (capVelocity (sinkStep s).2.1) 0.95).x
    BALL_RADIUS (screenWidth - BALL_RADIUS)
    (by norm_num [BALL_RADIUS, screenWidth])
  have hy := bounceAxis_fst_mem
    (Vector2Add (sinkStep s).1 (capVelocity (sinkStep s).2.1)).y
    (Vector2Scale (capVelocity (sinkStep s).2.1) 0.95).y
    BALL_RADIUS (screenHeight - BALL_RADIUS)
    (by norm_num [BALL_RADIUS, screenHeight])
  exact ⟨hx.1, hx.2, hy.1, hy.2⟩

/-- Concrete state for the C2 witness: ball heading out of the left wall. -/
def c2WitnessState : GameState :=
  { strokes := 2, holeInOne := false, ball := ⟨9, 300⟩, hole := ⟨700, 100⟩,
    velocity := ⟨-5, 0⟩, dragging := false, dragStart := ⟨0, 0⟩ }

/-- Witness for C2 at a concrete pre-step state. -/
theorem boundary_containment_witness :
    BALL_RADIUS ≤ (physicsStep c2WitnessState).ball.x ∧
    (physicsStep c2WitnessState).ball.x ≤ screenWidth - BALL_RADIUS ∧
    BALL_RADIUS ≤ (physicsStep c2WitnessState).ball.y ∧
    (physicsStep c2WitnessState).ball.y ≤ screenHeight - BALL_RADIUS :=
  boundary_containment c2WitnessState rfl

/-- Concrete state refuting claim C1: the ball is 4 pixels from the hole
(distance 4 < 5) with squared pre-step speed 0.81 < 1, yet the step does not
sink it, because the win check reads the velocity after the sink pull of
magnitude 0.5 has been added, and that velocity has squared length 1.96. -/
def c1CounterState : GameState :=
  { strokes := 1, holeInOne := false, ball := ⟨704, 100⟩, hole := ⟨700, 100⟩,
    velocity := ⟨-0.9, 0⟩, dragging := false, dragStart := ⟨0, 0⟩ }

/-- Claim C1 as stated is false: this state satisfies all of the claim's
premises (squared distance 16 < 25, squared velocity 0.81 < 1, not sunk),
but the physics step leaves isSunk false. -/
theorem sink_determinism_counterexample :
    Vector2DistanceSqr c1CounterState.ball c1CounterState.hole < 5 * 5 ∧
    Vector2LengthSqr c1CounterState.velocity < 1 ∧
    c1CounterState.holeInOne = false ∧
    (physicsStep c1CounterState).holeInOne = false := by
  have hsub : Vector2Subtract c1CounterState.hole c1CounterState.ball = ⟨-4, 0⟩ := by
    norm_num [Vector2Subtract, c1CounterState]
  have hnorm : Vector2Normalize (Vector2Subtract c1CounterState.hole c1CounterState.ball)
      = ⟨-1, 0⟩ := by
    rw [hsub, @Vector2Normalize_eq_of_len ⟨-4, 0⟩ 4 (by norm_num)
      (by norm_num [Vector2LengthSqr])]
    norm_num
  have hatt : sinkAttraction c1CounterState = ⟨-1.4, 0⟩ := by
    unfold sinkAttraction
    rw [hnorm]
    norm_num [Vector2Add, Vector2Scale, SINK_PULL, c1CounterState]
  have hsink := @sinkStep_of_pull c1CounterState
    (by norm_num [distLt, Vector2DistanceSqr, Vector2LengthSqr, Vector2Subtract,
      SINK_DISTANCE, c1CounterState])
    (by
      rintro ⟨-, hv⟩
      rw [hatt] at hv
      norm_num [Vector2LengthSqr] at hv)
  refine ⟨by norm_num [Vector2DistanceSqr, Vector2LengthSqr, Vector2Subtract, c1CounterState],
    by norm_num [Vector2LengthSqr, c1CounterState], rfl, ?_⟩
  rw [physicsStep_of_play rfl, hsink]

/-- Claim C1, amended: the low-speed check of the win condition is evaluated
on the velocity after the sink attraction has been added.  For every state
with isSunk false, squared ball-hole distance below 25, hole within the
margin rectangle the generator guarantees, and squared post-attraction
velocity below 1, the physics step sets isSunk, snaps the ball exactly onto
the hole and zeroes the velocity. -/
theorem sink_determinism_amended (s : GameState) (h0 : s.holeInOne = false)
    (hd : Vector2DistanceSqr s.ball s.hole < 5 * 5)
    (hv : Vector2LengthSqr (sinkAttraction s) < 1)
    (hx1 : 50 ≤ s.hole.x) (hx2 : s.hole.x ≤ 750)
    (hy1 : 50 ≤ s.hole.y) (hy2 : s.hole.y ≤ 550) :
    (physicsStep s).holeInOne = true ∧ (physicsStep s).ball = s.hole ∧
    (physicsStep s).velocity = ⟨0, 0⟩ := by
  have h30 : distLt s.ball s.hole SINK_DISTANCE := by
    have : (SINK_DISTANCE * SINK_DISTANCE : ℚ) = 900 := by norm_num [SINK_DISTANCE]
    rw [distLt, this]
    linarith
  have hsnap := sinkStep_of_snap h30 hd hv
  rw [physicsStep_of_play h0, hsnap]
  dsimp only
  have hcap : capVelocity (⟨0, 0⟩ : Vec2) = ⟨0, 0⟩ :=
    capVelocity_of_le (by norm_num [Vector2LengthSqr, MAX_VELOCITY])
  rw [hcap]
  have hadd : Vector2Add s.hole ⟨0, 0⟩ = s.hole := by
    simp [Vector2Add]
  have hscale : Vector2Scale (⟨0, 0⟩ : Vec2) 0.95 = ⟨0, 0⟩ := by
    simp [Vector2Scale]
  rw [hadd, hscale]
  have hbx := @bounceAxis_of_mid s.hole.x (0 : ℚ) BALL_RADIUS (screenWidth - BALL_RADIUS)
    (by rw [BALL_RADIUS]; linarith) (by rw [screenWidth, BALL_RADIUS]; linarith)
  have hby := @bounceAxis_of_mid s.hole.y (0 : ℚ) BALL_RADIUS (screenHeight - BALL_RADIUS)
    (by rw [BALL_RADIUS]; linarith) (by rw [screenHeight, BALL_RADIUS]; linarith)
  rw [hbx, hby]
  exact ⟨rfl, rfl, rfl⟩

/-- Concrete state for the C1 witness: 4 pixels from the hole, moving away
from it at speed 0.5, so the sink pull cancels the velocity exactly. -/
def c1WitnessState : GameState :=
  { strokes := 1, holeInOne := false, ball := ⟨704, 100⟩, hole := ⟨700, 100⟩,
    velocity := ⟨0.5, 0⟩, dragging := false, dragStart := ⟨0, 0⟩ }

/-- Witness for the amended C1 at a concrete state. -/
theorem sink_determinism_amended_witness :
    (physicsStep c1WitnessState).holeInOne = true ∧
    (physicsStep c1WitnessState).ball = c1WitnessState.hole ∧
    (physicsStep c1WitnessState).velocity = ⟨0, 0⟩ := by
  have hsub : Vector2Subtract c1WitnessState.hole c1WitnessState.ball = ⟨-4, 0⟩ := by
    norm_num [Vector2Subtract, c1WitnessState]
  have hatt : Vector2LengthSqr (sinkAttraction c1WitnessState) < 1 := by
    unfold sinkAttraction
    rw [hsub, @Vector2Normalize_eq_of_len ⟨-4, 0⟩ 4 (by norm_num)
      (by norm_num [Vector2LengthSqr])]
    norm_num [Vector2Add, Vector2Scale, Vector2LengthSqr, SINK_PULL, c1WitnessState]
  exact sink_determinism_amended c1WitnessState rfl
    (by norm_num [Vector2DistanceSqr, Vector2LengthSqr, Vector2Subtract, c1WitnessState])
    hatt
    (by norm_num [c1WitnessState]) (by norm_num [c1WitnessState])
    (by norm_num [c1WitnessState]) (by norm_num [c1WitnessState])

/-- The wall-bounce scenario of claim C3: ball at (radius - 1, 300) moving
with velocity (-5, 0), far outside the sink radius of the hole. -/
def c3State : GameState :=
  { strokes := 1, holeInOne := false, ball := ⟨9, 300⟩, hole := ⟨700, 100⟩,
    velocity := ⟨-5, 0⟩, dragging := false, dragStart := ⟨0, 0⟩ }

lemma c3_eval : physicsStep c3State =
    { strokes := 1, holeInOne := false, ball := ⟨10, 300⟩, hole := ⟨700, 100⟩,
      velocity := ⟨3.8, 0⟩, dragging := false, dragStart := ⟨0, 0⟩ } := by
  have hfar : ¬ distLt c3State.ball c3State.hole SINK_DISTANCE := by
    norm_num [distLt, Vector2DistanceSqr, Vector2LengthSqr, Vector2Subtract,
      SINK_DISTANCE, c3State]
  have hcap : capVelocity c3State.velocity = c3State.velocity :=
    capVelocity_of_le (by norm_num [Vector2LengthSqr, MAX_VELOCITY, c3State])
  rw [physicsStep_of_play rfl, sinkStep_of_far hfar]
  dsimp only
  rw [hcap]
  have hadd : Vector2Add c3State.ball c3State.velocity = ⟨4, 300⟩ := by
    norm_num [Vector2Add, c3State]
  have hscale : Vector2Scale c3State.velocity 0.95 = ⟨-4.75, 0⟩ := by
    norm_num [Vector2Scale, c3State]
  rw [hadd, hscale]
  dsimp only
  rw [bounceAxis_of_low (by norm_num [BALL_RADIUS]),
    bounceAxis_of_mid (by norm_num [BALL_RADIUS]) (by norm_num [screenHeight, BALL_RADIUS])]
  norm_num [c3State, BALL_RADIUS]

/-- Claim C3 as stated is false: in the wall-bounce scenario the x velocity
after the step is 3.8, not 4.0, because the friction factor 0.95 multiplies
the velocity before the bounce damping -0.8 does. -/
theorem wall_bounce_counterexample :
    c3State.ball = ⟨BALL_RADIUS - 1, 300⟩ ∧ c3State.velocity = ⟨-5, 0⟩ ∧
    c3State.holeInOne = false ∧ ¬ distLt c3State.ball c3State.hole SINK_DISTANCE ∧
    (physicsStep c3State).ball.x = BALL_RADIUS ∧
    (physicsStep c3State).velocity.x ≠ 4 := by
  refine ⟨by norm_num [c3State, BALL_RADIUS], rfl, rfl,
    by norm_num [distLt, Vector2DistanceSqr, Vector2LengthSqr, Vector2Subtract,
      SINK_DISTANCE, c3State], ?_, ?_⟩ <;>
  · rw [c3_eval]
    norm_num [BALL_RADIUS]

/-- Claim C3, amended: one physics step from the wall-bounce scenario yields
ballPosition.x equal to the radius and velocity.x equal to 3.8, the incoming
speed 5 reduced by the friction factor 0.95 and the bounce damping 0.8. -/
theorem wall_bounce_amended :
    (physicsStep c3State).ball.x = BALL_RADIUS ∧
    (physicsStep c3State).velocity.x = 5 * 0.95 * 0.8 := by
  rw [c3_eval]
  norm_num [BALL_RADIUS]

lemma genHole_sound {stream : ℕ → ℤ × ℤ} (hs : streamInRange stream) :
    ∀ fuel i p, GenerateNewHolePosition stream i fuel = some p →
      90000 ≤ Vector2DistanceSqr p startPos ∧
      50 ≤ p.x ∧ p.x ≤ 750 ∧ 50 ≤ p.y ∧ p.y ≤ 550 := by
  intro fuel
  induction fuel with
  | zero =>
    intro i p h
    simp [GenerateNewHolePosition] at h
  | succ n ih =>
    intro i p h
    simp only [GenerateNewHolePosition] at h
    by_cases hc : distLt ⟨((stream i).1 : ℚ), ((stream i).2 : ℚ)⟩ startPos 300
    · rw [if_pos hc] at h
      exact ih (i + 1) p h
    · rw [if_neg hc] at h
      obtain rfl : (⟨((stream i).1 : ℚ), ((stream i).2 : ℚ)⟩ : Vec2) = p := Option.some.inj h
      have hr := hs i
      have hd : 90000 ≤ Vector2DistanceSqr ⟨((stream i).1 : ℚ), ((stream i).2 : ℚ)⟩ startPos :=
        le_trans (by norm_num) (not_lt.mp hc)
      refine ⟨hd, ?_, ?_, ?_, ?_⟩
      · show (50 : ℚ) ≤ ((stream i).1 : ℚ)
        exact_mod_cast hr.1
      · show ((stream i).1 : ℚ) ≤ 750
        exact_mod_cast hr.2.1
      · show (50 : ℚ) ≤ ((stream i).2 : ℚ)
        exact_mod_cast hr.2.2.1
      · show ((stream i).2 : ℚ) ≤ 550
        exact_mod_cast hr.2.2.2

/-- Claim C4: for the 800 x 600 screen with margin 50, minDistance 300 and
ball start (100, 500), every position the hole generator returns lies at
squared distance at least 90000 = 300 * 300 from the ball start (that is,
Euclidean distance at least 300) and has both coordinates within
[50, 750] x [50, 550], for every draw sequence the random source can
produce, on whichever iteration terminates the rejection loop. -/
theorem hole_placement_validity (stream : ℕ → ℤ × ℤ) (fuel : ℕ) (p : Vec2)
    (hs : streamInRange stream)
    (h : GenerateNewHolePosition stream 0 fuel = some p) :
    90000 ≤ Vector2DistanceSqr p startPos ∧
    50 ≤ p.x ∧ p.x ≤ 750 ∧ 50 ≤ p.y ∧ p.y ≤ 550 :=
  genHole_sound hs fuel 0 p h

/-- Witness for C4: the constant draw (700, 100) is accepted on the first
iteration and satisfies both constraints. -/
theorem hole_placement_validity_witness :
    streamInRange (fun _ => (700, 100)) ∧
    GenerateNewHolePosition (fun _ => (700, 100)) 0 1 = some ⟨700, 100⟩ ∧
    (90000 ≤ Vector2DistanceSqr ⟨700, 100⟩ startPos ∧
      50 ≤ (⟨700, 100⟩ : Vec2).x ∧ (⟨700, 100⟩ : Vec2).x ≤ 750 ∧
      50 ≤ (⟨700, 100⟩ : Vec2).y ∧ (⟨700, 100⟩ : Vec2).y ≤ 550) := by
  have hs : streamInRange (fun _ => (700, 100)) := fun n => by norm_num
  have hgen : GenerateNewHolePosition (fun _ => (700, 100)) 0 1 = some ⟨700, 100⟩ := by
    simp only [GenerateNewHolePosition]
    rw [if_neg (by norm_num [distLt, Vector2DistanceSqr, Vector2LengthSqr,
      Vector2Subtract, startPos])]
    norm_num
  exact ⟨hs, hgen, hole_placement_validity _ 1 _ hs hgen⟩

/-- Claim C8: after any successful call to ResetGame, from any previous
state, the ball is back at the fixed start (100, 500), the velocity is zero,
the stroke count is zero, the win flag and the drag flag are cleared, and the
new hole position satisfies the generator's distance and margin constraints. -/
theorem reset_round (stream : ℕ → ℤ × ℤ) (fuel : ℕ) (s s' : GameState)
    (hs : streamInRange stream) (h : ResetGame stream fuel s = some s') :
    s'.ball = ⟨100, 500⟩ ∧ s'.velocity = ⟨0, 0⟩ ∧ s'.strokes = 0 ∧
    s'.holeInOne = false ∧ s'.dragging = false ∧
    90000 ≤ Vector2DistanceSqr s'.hole startPos ∧
    50 ≤ s'.hole.x ∧ s'.hole.x ≤ 750 ∧ 50 ≤ s'.hole.y ∧ s'.hole.y ≤ 550 := by
  unfold ResetGame at h
  cases hg : GenerateNewHolePosition stream 0 fuel with
  | none =>
    rw [hg] at h
    exact Option.noConfusion h
  | some p =>
    rw [hg] at h
    obtain rfl : ResetGameWith p = s' := Option.some.inj h
    obtain ⟨h1, h2, h3, h4, h5⟩ := genHole_sound hs fuel 0 p hg
    exact ⟨rfl, rfl, rfl, rfl, rfl, h1, h2, h3, h4, h5⟩

/-- An arbitrary dirty pre-state for the C8 witness. -/
def c8PreState : GameState :=
  { strokes := 7, holeInOne := true, ball := ⟨1, 2⟩, hole := ⟨3, 4⟩,
    velocity := ⟨5, 6⟩, dragging := true, dragStart := ⟨7, 8⟩ }

/-- Witness for C8 at a concrete stream, fuel and pre-state. -/
theorem reset_round_witness :
    (ResetGameWith ⟨700, 100⟩).ball = ⟨100, 500⟩ ∧
    (ResetGameWith ⟨700, 100⟩).velocity = ⟨0, 0⟩ ∧
    (ResetGameWith ⟨700, 100⟩).strokes = 0 ∧
    (ResetGameWith ⟨700, 100⟩).holeInOne = false ∧
    (ResetGameWith ⟨700, 100⟩).dragging = false ∧
    90000 ≤ Vector2DistanceSqr (ResetGameWith ⟨700, 100⟩).hole startPos ∧
    50 ≤ (ResetGameWith ⟨700, 100⟩).hole.x ∧ (ResetGameWith ⟨700, 100⟩).hole.x ≤ 750 ∧
    50 ≤ (ResetGameWith ⟨700, 100⟩).hole.y ∧ (ResetGameWith ⟨700, 100⟩).hole.y ≤ 550 := by
  have hs : streamInRange (fun _ => (700, 100)) := fun n => by norm_num
  have h : ResetGame (fun _ => (700, 100)) 1 c8PreState = some (ResetGameWith ⟨700, 100⟩) := by
    unfold ResetGame
    have hgen : GenerateNewHolePosition (fun _ => (700, 100)) 0 1 = some ⟨700, 100⟩ := by
      simp only [GenerateNewHolePosition]
      rw [if_neg (by norm_num [distLt, Vector2DistanceSqr, Vector2LengthSqr,
        Vector2Subtract, startPos])]
      norm_num
    rw [hgen]
    rfl
  exact reset_round (fun _ => (700, 100)) 1 c8PreState (ResetGameWith ⟨700, 100⟩) hs h

lemma inputStep_of_play {nh : Vec2} {inp : FrameInput} {s : GameState}
    (h : s.holeInOne = false) :
    inputStep nh inp s = dragCommitStep inp (dragStartStep inp s) := by
  unfold inputStep
  rw [if_neg (by simp [h])]

lemma inputStep_of_sunk_no_reset {nh : Vec2} {inp : FrameInput} {s : GameState}
    (h : s.holeInOne = true)
    (hb : ¬ (inp.pressed = true ∧ CheckCollisionPointRec inp.mouse playAgainButton)) :
    inputStep nh inp s = s := by
  unfold inputStep
  rw [if_pos h, if_neg hb]

lemma inputStep_of_sunk_reset {nh : Vec2} {inp : FrameInput} {s : GameState}
    (h : s.holeInOne = true)
    (hb : inp.pressed = true ∧ CheckCollisionPointRec inp.mouse playAgainButton) :
    inputStep nh inp s = ResetGameWith nh := by
  unfold inputStep
  rw [if_pos h, if_pos hb]

lemma physicsStep_of_sunk {s : GameState} (h : s.holeInOne = true) :
    physicsStep s = s := by
  unfold physicsStep
  rw [if_pos h]

lemma dragStartStep_of_start {inp : FrameInput} {s : GameState}
    (h : inp.pressed = true ∧ distLt inp.mouse s.ball 20 ∧ Vector2LengthSqr s.velocity < 0.1) :
    dragStartStep inp s = { s with dragging := true, dragStart := inp.mouse } := by
  unfold dragStartStep
  rw [if_pos h]

lemma dragStartStep_of_stay {inp : FrameInput} {s : GameState}
    (h : ¬ (inp.pressed = true ∧ distLt inp.mouse s.ball 20 ∧
      Vector2LengthSqr s.velocity < 0.1)) :
    dragStartStep inp s = s := by
  unfold dragStartStep
  rw [if_neg h]

lemma dragCommitStep_of_commit {inp : FrameInput} {s : GameState}
    (hr : inp.released = true) (hd : s.dragging = true) :
    dragCommitStep inp s =
      { s with
        velocity := Vector2Add s.velocity (shotDelta (Vector2Subtract s.dragStart inp.mouse)),
        dragging := false,
        strokes := s.strokes + 1 } := by
  unfold dragCommitStep
  rw [if_pos ⟨hr, hd⟩]

lemma dragCommitStep_of_stay {inp : FrameInput} {s : GameState}
    (h : ¬ (inp.released = true ∧ s.dragging = true)) :
    dragCommitStep inp s = s := by
  unfold dragCommitStep
  rw [if_neg h]

/-- Claim C5: on a committed drag the velocity delta added is exactly
shootVector * 0.15 * powerScalar with shootVector = dragStart - dragEnd;
whenever the squared drag distance is at least 40000 (drag distance at least
MAX_DRAG_DISTANCE = 200), powerScalar is exactly 1; when the drag distance
is zero, powerScalar is exactly 0 and the delta is the zero vector. -/
theorem shot_power_clamp (nh : Vec2) (inp : FrameInput) (s : GameState)
    (h0 : s.holeInOne = false) (hp : inp.pressed = false)
    (hr : inp.released = true) (hd : s.dragging = true) :
    (inputStep nh inp s).velocity =
      Vector2Add s.velocity (shotDelta (Vector2Subtract s.dragStart inp.mouse)) ∧
    (∀ shoot : Vec2, shotDelta shoot =
      ⟨shoot.x * 0.15 * powerScalar shoot, shoot.y * 0.15 * powerScalar shoot⟩) ∧
    (∀ shoot : Vec2, 40000 ≤ Vector2LengthSqr shoot → powerScalar shoot = 1) ∧
    (∀ shoot : Vec2, Vector2LengthSqr shoot = 0 →
      powerScalar shoot = 0 ∧ shotDelta shoot = ⟨0, 0⟩) := by
  refine ⟨?_, fun shoot => rfl, ?_, ?_⟩
  · rw [inputStep_of_play h0, dragStartStep_of_stay (by simp [hp]),
      dragCommitStep_of_commit hr hd]
  · intro shoot hsq
    have h200 : ((200 : ℕ) : ℚ) ≤ Rat.sqrt (Vector2LengthSqr shoot) :=
      le_rat_sqrt_of_sq_le (by push_cast; linarith)
    unfold powerScalar Vector2Length MAX_DRAG_DISTANCE
    refine min_eq_right ?_
    rw [one_le_div (by norm_num)]
    exact_mod_cast h200
  · intro shoot hsq
    have hps : powerScalar shoot = 0 := by
      unfold powerScalar Vector2Length MAX_DRAG_DISTANCE
      rw [hsq, rat_sqrt_of_eq_sq le_rfl (by norm_num)]
      norm_num
    refine ⟨hps, ?_⟩
    unfold shotDelta
    rw [hps]
    norm_num

/-- Concrete dragging state for the C5 and C10 style witnesses. -/
def c5State : GameState :=
  { strokes := 0, holeInOne := false, ball := ⟨100, 500⟩, hole := ⟨700, 100⟩,
    velocity := ⟨0, 0⟩, dragging := true, dragStart := ⟨200, 0⟩ }

/-- Release at the origin: drag vector (200, 0), drag distance exactly 200. -/
def c5InputFar : FrameInput := ⟨false, true, ⟨0, 0⟩⟩

/-- Witness for C5 at a concrete committed drag of distance exactly 200 and
at the zero-length drag vector. -/
theorem shot_power_clamp_witness :
    (inputStep ⟨700, 100⟩ c5InputFar c5State).velocity =
      Vector2Add c5State.velocity
        (shotDelta (Vector2Subtract c5State.dragStart c5InputFar.mouse)) ∧
    powerScalar ⟨200, 0⟩ = 1 ∧
    powerScalar ⟨0, 0⟩ = 0 ∧ shotDelta ⟨0, 0⟩ = ⟨0, 0⟩ := by
  have h := shot_power_clamp ⟨700, 100⟩ c5InputFar c5State rfl rfl rfl rfl
  refine ⟨h.1, h.2.2.1 ⟨200, 0⟩ (by norm_num [Vector2LengthSqr]), ?_, ?_⟩
  · exact (h.2.2.2 ⟨0, 0⟩ (by norm_num [Vector2LengthSqr])).1
  · exact (h.2.2.2 ⟨0, 0⟩ (by norm_num [Vector2LengthSqr])).2

/-- Claim C6: while isSunk is true, a full frame update that does not trigger
the Play Again reset leaves the whole state unchanged: physics and shot input
are frozen, so ballPosition, velocity and strokeCount in particular are
untouched. -/
theorem frozen_while_sunk (nh : Vec2) (inp : FrameInput) (s : GameState)
    (h : s.holeInOne = true)
    (hb : ¬ (inp.pressed = true ∧ CheckCollisionPointRec inp.mouse playAgainButton)) :
    frameStep nh inp s = s := by
  unfold frameStep
  rw [inputStep_of_sunk_no_reset h hb, physicsStep_of_sunk h]

/-- Concrete sunk state for the C6 witness. -/
def c6State : GameState :=
  { strokes := 3, holeInOne := true, ball := ⟨700, 100⟩, hole := ⟨700, 100⟩,
    velocity := ⟨0, 0⟩, dragging := false, dragStart := ⟨0, 0⟩ }

/-- Frame input with no press for the C6 witness. -/
def c6Input : FrameInput := ⟨false, false, ⟨40, 40⟩⟩

/-- Witness for C6 at a concrete sunk state and inert input. -/
theorem frozen_while_sunk_witness :
    frameStep ⟨300, 300⟩ c6Input c6State = c6State :=
  frozen_while_sunk ⟨300, 300⟩ c6Input c6State rfl
    (fun hc => Bool.false_ne_true hc.1)

/-- Claim C9: the normalization of a zero-length vector is guarded.  When the
ball sits exactly on the hole, the direction fed to the sink attraction is
the zero-length vector, raymath's Vector2Normalize returns the zero vector
for it, and the attraction therefore leaves the velocity unchanged; no
undefined value reaches the position or the velocity. -/
theorem normalize_zero_guard (s : GameState) (h : s.ball = s.hole) :
    Vector2Normalize (Vector2Subtract s.hole s.ball) = ⟨0, 0⟩ ∧
    sinkAttraction s = s.velocity := by
  have hsub : Vector2Subtract s.hole s.ball = ⟨0, 0⟩ := by
    rw [h]
    simp [Vector2Subtract]
  have hn : Vector2Normalize (Vector2Subtract s.hole s.ball) = ⟨0, 0⟩ := by
    rw [hsub]
    exact Vector2Normalize_zero_vec
  refine ⟨hn, ?_⟩
  unfold sinkAttraction
  rw [hn]
  simp [Vector2Add, Vector2Scale]

/-- Concrete state with the ball exactly on the hole for the C9 witness. -/
def c9State : GameState :=
  { strokes := 2, holeInOne := false, ball := ⟨400, 300⟩, hole := ⟨400, 300⟩,
    velocity := ⟨0.5, -0.2⟩, dragging := false, dragStart := ⟨0, 0⟩ }

/-- Witness for C9 at a concrete ball-on-hole state. -/
theorem normalize_zero_guard_witness :
    Vector2Normalize (Vector2Subtract c9State.hole c9State.ball) = ⟨0, 0⟩ ∧
    sinkAttraction c9State = c9State.velocity :=
  normalize_zero_guard c9State rfl

/-- Claim C10: committing a drag whose start and end coincide leaves the
velocity unchanged, still increments the stroke count by exactly 1, and
returns the drag state to idle. -/
theorem zero_length_drag (nh : Vec2) (inp : FrameInput) (s : GameState)
    (h0 : s.holeInOne = false) (hd : s.dragging = true) (hp : inp.pressed = false)
    (hr : inp.released = true) (hm : inp.mouse = s.dragStart) :
    (inputStep nh inp s).velocity = s.velocity ∧
    (inputStep nh inp s).strokes = s.strokes + 1 ∧
    (inputStep nh inp s).dragging = false := by
  rw [inputStep_of_play h0, dragStartStep_of_stay (by simp [hp]),
    dragCommitStep_of_commit hr hd]
  have hsub : Vector2Subtract s.dragStart inp.mouse = ⟨0, 0⟩ := by
    rw [hm]
    simp [Vector2Subtract]
  have hsd : shotDelta ⟨0, 0⟩ = ⟨0, 0⟩ := by
    unfold shotDelta
    norm_num
  rw [hsub, hsd]
  refine ⟨?_, rfl, rfl⟩
  show Vector2Add s.velocity ⟨0, 0⟩ = s.velocity
  simp [Vector2Add]

/-- Concrete zero-length drag for the C10 witness: release exactly at the
recorded drag start. -/
def c10Input : FrameInput := ⟨false, true, ⟨200, 0⟩⟩

/-- Concrete dragging state for the C10 witness. -/
def c10State : GameState :=
  { strokes := 4, holeInOne := false, ball := ⟨100, 500⟩, hole := ⟨700, 100⟩,
    velocity := ⟨0, 0⟩, dragging := true, dragStart := ⟨200, 0⟩ }

/-- Witness for C10 at a concrete zero-length drag. -/
theorem zero_length_drag_witness :
    (inputStep ⟨700, 100⟩ c10Input c10State).velocity = c10State.velocity ∧
    (inputStep ⟨700, 100⟩ c10Input c10State).strokes = c10State.strokes + 1 ∧
    (inputStep ⟨700, 100⟩ c10Input c10State).dragging = false :=
  zero_length_drag ⟨700, 100⟩ c10Input c10State rfl rfl rfl rfl rfl

/-- Non-dragging state with a stopped ball for the C7 counterexample. -/
def c7State : GameState :=
  { strokes := 0, holeInOne := false, ball := ⟨100, 500⟩, hole := ⟨700, 100⟩,
    velocity := ⟨0, 0⟩, dragging := false, dragStart := ⟨0, 0⟩ }

/-- Press at distance 17 from the ball center for the C7 counterexample. -/
def c7Input : FrameInput := ⟨true, false, ⟨117, 500⟩⟩

/-- Claim C7 as stated is false: a press at distance 17 from the ball center
is farther than 1.5 times the ball radius (15), yet the input step still
enters the Dragging state, because the source gates the drag start at
distance 20 (twice the ball radius), not 1.5 times. -/
theorem drag_guard_counterexample :
    c7State.dragging = false ∧ c7State.holeInOne = false ∧
    Vector2LengthSqr c7State.velocity < 0.1 ∧
    ¬ (Vector2DistanceSqr c7Input.mouse c7State.ball <
        (1.5 * BALL_RADIUS) * (1.5 * BALL_RADIUS)) ∧
    (inputStep ⟨700, 100⟩ c7Input c7State).dragging = true := by
  refine ⟨rfl, rfl, by norm_num [Vector2LengthSqr, c7State], ?_, ?_⟩
  · norm_num [Vector2DistanceSqr, Vector2LengthSqr, Vector2Subtract, BALL_RADIUS,
      c7Input, c7State]
  · rw [inputStep_of_play rfl,
      dragStartStep_of_start (by
        refine ⟨rfl, ?_, by norm_num [Vector2LengthSqr, c7State]⟩
        norm_num [distLt, Vector2DistanceSqr, Vector2LengthSqr, Vector2Subtract,
          c7Input, c7State]),
      dragCommitStep_of_stay (fun hc => Bool.false_ne_true hc.1)]

/-- Claim C7, amended: the Idle-to-Dragging transition happens only while
isSunk is false, on a press, with the ball stopped (squared speed below 0.1)
and the pointer within distance 20 of the ball center, 20 being twice the
ball radius rather than 1.5 times it; and the stroke count is incremented,
by exactly 1, only on a release that commits while the drag state is
Dragging after the drag-start check of the same frame. -/
theorem drag_guard_amended (nh : Vec2) (inp : FrameInput) (s : GameState) :
    (s.dragging = false → (inputStep nh inp s).dragging = true →
      s.holeInOne = false ∧ inp.pressed = true ∧
      Vector2DistanceSqr inp.mouse s.ball < 20 * 20 ∧
      Vector2LengthSqr s.velocity < 0.1) ∧
    ((inputStep nh inp s).strokes = s.strokes + 1 →
      s.holeInOne = false ∧ inp.released = true ∧
      (dragStartStep inp s).dragging = true) := by
  by_cases hs1 : s.holeInOne = true
  · by_cases hbtn : inp.pressed = true ∧ CheckCollisionPointRec inp.mouse playAgainButton
    · rw [inputStep_of_sunk_reset hs1 hbtn]
      constructor
      · intro _ habs
        exact absurd habs (by simp [ResetGameWith])
      · intro habs
        exact absurd habs.symm (by simp [ResetGameWith])
    · rw [inputStep_of_sunk_no_reset hs1 hbtn]
      constructor
      · intro hd habs
        rw [hd] at habs
        exact absurd habs (by simp)
      · intro habs
        omega
  · have hs0 : s.holeInOne = false := by
      cases h : s.holeInOne
      · rfl
      · exact absurd h hs1
    rw [inputStep_of_play hs0]
    by_cases hstart : inp.pressed = true ∧ distLt inp.mouse s.ball 20 ∧
        Vector2LengthSqr s.velocity < 0.1
    · rw [dragStartStep_of_start hstart]
      by_cases hcommit : inp.released = true
      · rw [dragCommitStep_of_commit hcommit rfl]
        constructor
        · intro _ habs
          exact absurd habs (by simp)
        · intro _
          exact ⟨hs0, hcommit, rfl⟩
      · rw [dragCommitStep_of_stay (fun hc => hcommit hc.1)]
        constructor
        · intro _ _
          exact ⟨hs0, hstart.1, hstart.2.1, hstart.2.2⟩
        · intro habs
          simp at habs
    · rw [dragStartStep_of_stay hstart]
      by_cases hcommit : inp.released = true ∧ s.dragging = true
      · rw [dragCommitStep_of_commit hcommit.1 hcommit.2]
        constructor
        · intro hd _
          rw [hd] at hcommit
          exact absurd hcommit.2 (by simp)
        · intro _
          exact ⟨hs0, hcommit.1, hcommit.2⟩
      · rw [dragCommitStep_of_stay hcommit]
        constructor
        · intro hd habs
          rw [hd] at habs
          exact absurd habs (by simp)
        · intro habs
          simp at habs

/-- Stopped, non-dragging state used by the C7 witness. -/
def c7WitnessState : GameState :=
  { strokes := 5, holeInOne := false, ball := ⟨100, 500⟩, hole := ⟨700, 100⟩,
    velocity := ⟨0, 0⟩, dragging := false, dragStart := ⟨0, 0⟩ }

/-- Press directly on the ball center for the C7 witness. -/
def c7WitnessInput : FrameInput := ⟨true, false, ⟨100, 500⟩⟩

/-- Dragging state and its releasing input for the C7 witness. -/
def c7CommitState : GameState :=
  { strokes := 5, holeInOne := false, ball := ⟨100, 500⟩, hole := ⟨700, 100⟩,
    velocity := ⟨0, 0⟩, dragging := true, dragStart := ⟨150, 500⟩ }

/-- Release input for the C7 witness commit case. -/
def c7CommitInput : FrameInput := ⟨false, true, ⟨120, 500⟩⟩

/-- Witness for the amended C7: the drag-start guard conclusion at a concrete
press, and the commit conclusion at a concrete release. -/
theorem drag_guard_amended_witness :
    (c7WitnessState.holeInOne = false ∧ c7WitnessInput.pressed = true ∧
      Vector2DistanceSqr c7WitnessInput.mouse c7WitnessState.ball < 20 * 20 ∧
      Vector2LengthSqr c7WitnessState.velocity < 0.1) ∧
    (c7CommitState.holeInOne = false ∧ c7CommitInput.released = true ∧
      (dragStartStep c7CommitInput c7CommitState).dragging = true) := by
  constructor
  · refine (drag_guard_amended ⟨700, 100⟩ c7WitnessInput c7WitnessState).1 rfl ?_
    rw [inputStep_of_play rfl,
      dragStartStep_of_start (by
        refine ⟨rfl, ?_, by norm_num [Vector2LengthSqr, c7WitnessState]⟩
        norm_num [distLt, Vector2DistanceSqr, Vector2LengthSqr, Vector2Subtract,
          c7WitnessInput, c7WitnessState]),
      dragCommitStep_of_stay (fun hc => Bool.false_ne_true hc.1)]
  · refine (drag_guard_amended ⟨700, 100⟩ c7CommitInput c7CommitState).2 ?_
    rw [inputStep_of_play rfl,
      dragStartStep_of_stay (fun hc => Bool.false_ne_true hc.1),
      dragCommitStep_of_commit rfl rfl]

end MiniGolf
